import Mathlib

/-!
Verification of the insurance-claim query pipeline of
`backend/services/query_processor.py` and
`backend/services/document_processor.py`.

The Python code is shallowly embedded: strings are `String`/`List Char`
(the queries and documents of interest are ASCII, so Python's Unicode
case folding coincides with `Char.toLower`), Python numbers (ints and
floats) are modelled as `ℚ`, optional dict fields as `Option`, and the
specific regular expressions of the code are hand-compiled to
backtracking matchers over `List Char` that are faithful to
`re.search` semantics (leftmost match, alternation and optional pieces
tried with backtracking, `re.IGNORECASE` realised by lower-casing the
scrutinee since every pattern literal is caseless).
-/

namespace BajajFinserv

/-- Boolean prefix test on character lists (used by the compiled regexes). -/
def pfx : List Char → List Char → Bool
  | [], _ => true
  | _ :: _, [] => false
  | a :: p, b :: s => a = b && pfx p s

/-- Boolean substring test, modelling Python's `in` operator on strings. -/
def occursIn (p : List Char) : List Char → Bool
  | [] => pfx p []
  | c :: s => pfx p (c :: s) || occursIn p s

/-- Fuel-indexed body of `countOcc` (structural recursion on the fuel so
that the kernel can evaluate it; every step strictly shortens the list,
so a fuel equal to the initial length is always sufficient). -/
def countOccAux (p : List Char) : Nat → List Char → Nat
  | _, [] => 0
  | 0, _ :: _ => 0
  | fuel + 1, c :: s' =>
    if pfx p (c :: s') then 1 + countOccAux p fuel (s'.drop (p.length - 1))
    else countOccAux p fuel s'

/-- Number of non-overlapping occurrences of `p` in `s`, scanning left to
right: Python's `str.count` (for a non-empty pattern, which is the only
way it is used). -/
def countOcc (p : List Char) (s : List Char) : Nat :=
  match p with
  | [] => 0
  | _ :: _ => countOccAux p s.length s

/-- Lower-case a string into a character list; models Python's
`str.lower()` on ASCII text. -/
def lowerChars (s : String) : List Char := s.data.map Char.toLower

/-- Digits of a decimal numeral to a natural number: Python's `int()` on a
regex group of `\d+`. -/
def digitsToNat (ds : List Char) : Nat :=
  ds.foldl (fun n c => 10 * n + (c.toNat - '0'.toNat)) 0

/-- Leftmost-match search: `re.search` tries the pattern at every start
position, left to right (including the position at end of string). -/
def scanFirst (f : List Char → Option α) : List Char → Option α
  | [] => f []
  | c :: rest =>
    match f (c :: rest) with
    | some a => some a
    | none => scanFirst f rest

/-- Continuations of the optional separator `[- ]?` (greedy: consuming the
separator is tried first, then the empty alternative). -/
def optSep : List Char → List (List Char)
  | [] => [[]]
  | c :: s => if c = '-' || c = ' ' then [s, c :: s] else [c :: s]

/-- Continuations of an optional literal `(?:w)?` (greedy). -/
def optLit (w : List Char) (s : List Char) : List (List Char) :=
  if pfx w s then [s.drop w.length, s] else [s]

/-- Continuations of a literal alternation `(?:w₁|w₂|…)`. -/
def altLit (ws : List (List Char)) (s : List Char) : List (List Char) :=
  ws.filterMap fun w => if pfx w s then some (s.drop w.length) else none

/-- Tail of age pattern 1, `[- ]?(?:year|yr|y)(?:ear)?[- ]?old`, after the
digit group. -/
def ageTail1 (s : List Char) : Bool :=
  (optSep s).any fun s1 =>
    (altLit ["year".toList, "yr".toList, "y".toList] s1).any fun s2 =>
      (optLit "ear".toList s2).any fun s3 =>
        (optSep s3).any fun s4 => pfx "old".toList s4

/-- Tail of age pattern 2, `[- ]?(?:M|F|male|female)` (case-insensitive, so
on the lowered text it succeeds exactly when the next character is `m` or
`f`). -/
def ageTail2 (s : List Char) : Bool :=
  (optSep s).any fun s1 =>
    match s1 with
    | c :: _ => c = 'm' || c = 'f'
    | [] => false

/-- Match of `(\d+)` followed by a given tail matcher at one position.
Backtracking inside `\d+` never helps in these patterns (the tail can
never start with a digit), so the maximal digit run is the only
candidate, and it is the captured group. -/
def digitsThen (tail : List Char → Bool) (s : List Char) : Option Nat :=
  let ds := s.takeWhile Char.isDigit
  if ds.isEmpty then none
  else if tail (s.dropWhile Char.isDigit) then some (digitsToNat ds) else none

/-- Age extraction of `_parse_query_details`: the three patterns
`(\d+)[- ]?(?:year|yr|y)(?:ear)?[- ]?old`, `(\d+)[- ]?(?:M|F|male|female)`,
`(\d+)[yY]` are tried in order and the first `re.search` hit wins. -/
def extractAge (q : String) : Option Nat :=
  let s := lowerChars q
  match scanFirst (digitsThen ageTail1) s with
  | some n => some n
  | none =>
    match scanFirst (digitsThen ageTail2) s with
    | some n => some n
    | none =>
      scanFirst (digitsThen fun r =>
        match r with
        | c :: _ => c = 'y'
        | [] => false) s

/-- Gender extraction: `re.search(r'(M|F|male|female)', query, IGNORECASE)`
matches at the first `m`/`f` character (the one-letter alternatives are
tried first, so the captured group is that single letter), normalised to
`"male"`/`"female"`. -/
def extractGender (q : String) : Option String :=
  ((lowerChars q).find? fun c => c = 'm' || c = 'f').map fun c =>
    if c = 'm' then "male" else "female"

/-- Keys of the procedure table, in definition order (the scan order). -/
def procedureKeys : List String :=
  ["knee", "heart", "surgery", "cancer", "dental", "cosmetic"]

/-- Fallback generic terms, all mapped to the canonical key `"surgery"`. -/
def generalTerms : List String :=
  ["surgery", "operation", "procedure", "treatment"]

/-- Procedure extraction: first procedure-table key occurring
(case-insensitively) as a substring of the query; otherwise the first
generic term, mapped to `"surgery"`. -/
def extractProcedure (q : String) : Option String :=
  let s := lowerChars q
  match procedureKeys.find? fun k => occursIn k.toList s with
  | some k => some k
  | none =>
    (generalTerms.find? fun k => occursIn k.toList s).map fun _ => "surgery"

/-- Python's `str.title()` restricted to its real semantics on ASCII: a
letter is upper-cased when it follows a non-letter (or starts the string)
and lower-cased otherwise. The boolean argument records whether the
previous character was a letter. -/
def titleChars : Bool → List Char → List Char
  | _, [] => []
  | prevAlpha, c :: r =>
    if c.isAlpha then
      (if prevAlpha then c.toLower else c.toUpper) :: titleChars true r
    else c :: titleChars false r

/-- Python's `str.title()`. -/
def titleStr (s : String) : String := String.mk (titleChars false s.data)

/-- Location extraction: `re.search(r'in ([A-Za-z]+)', query, IGNORECASE)`,
the captured letter run title-cased. (Capturing from the lowered text and
title-casing gives the same string as Python's capture-then-`.title()`,
since `.title()` fully normalises the case of a single alphabetic word.) -/
def locAt : List Char → Option String
  | 'i' :: 'n' :: ' ' :: r =>
    let ls := r.takeWhile Char.isAlpha
    if ls.isEmpty then none else some (String.mk (titleChars false ls))
  | _ => none

/-- Location extraction over the whole query. -/
def extractLocation (q : String) : Option String :=
  scanFirst locAt (lowerChars q)

/-- Tail of a duration pattern, `[- ]?(?:alts)[- ]?(?:old|policy)`, after
the digit group. -/
def durTail (alts : List (List Char)) (s : List Char) : Bool :=
  (optSep s).any fun s1 =>
    (altLit alts s1).any fun s2 =>
      (optSep s2).any fun s3 =>
        pfx "old".toList s3 || pfx "policy".toList s3

/-- Policy-duration extraction: patterns
`(\d+)[- ]?(?:month|mon)[- ]?(?:old|policy)`,
`(\d+)[- ]?(?:year|yr)[- ]?(?:old|policy)`,
`(\d+)[- ]?(?:day|d)[- ]?(?:old|policy)` tried in that order; the value is
normalised to months (years ×12, days ÷30) and paired with the unit label
the code stores for display. -/
def extractDuration (q : String) : Option (ℚ × String) :=
  let s := lowerChars q
  match scanFirst (digitsThen (durTail ["month".toList, "mon".toList])) s with
  | some n => some ((n : ℚ), "months")
  | none =>
    match scanFirst (digitsThen (durTail ["year".toList, "yr".toList])) s with
    | some n => some ((n : ℚ) * 12, "years")
    | none =>
      (scanFirst (digitsThen (durTail ["day".toList, "d".toList])) s).map
        fun n => ((n : ℚ) / 30, "days")

/-- The structured record produced by `_parse_query_details`; each field
defaults to absent (`none`) when its pattern does not match. -/
structure ParsedQuery where
  age : Option Nat
  gender : Option String
  procedure : Option String
  location : Option String
  policy_duration : Option ℚ
  policy_duration_unit : Option String
  raw_query : String
deriving DecidableEq, Repr

/-- `_parse_query_details`: total, never raises; unmatched fields stay
absent. -/
def parseQueryDetails (q : String) : ParsedQuery :=
  { age := extractAge q
    gender := extractGender q
    procedure := extractProcedure q
    location := extractLocation q
    policy_duration := (extractDuration q).map Prod.fst
    policy_duration_unit := (extractDuration q).map Prod.snd
    raw_query := q }

/-! ## Decision engine (`_make_decision`) -/

/-- `decision_rules["base_coverage_amount"]`. -/
def baseCoverageAmount : ℚ := 50000

/-- `decision_rules["min_policy_duration_months"]`. -/
def minPolicyDurationMonths : ℚ := 6

/-- `decision_rules["max_age_standard"]`. -/
def maxAgeStandard : Nat := 60

/-- `decision_rules["max_age_premium"]`. -/
def maxAgePremium : Nat := 75

/-- `decision_rules["age_penalty_factor"]` (= 0.8). -/
def agePenaltyFactor : ℚ := 8 / 10

/-- One entry of the static procedure table. -/
structure ProcedureInfo where
  covered : Bool
  category : String
  base_amount : ℚ
deriving DecidableEq, Repr

/-- `procedure_mappings`, in definition order. -/
def procedureMappings : List (String × ProcedureInfo) :=
  [("knee", ⟨true, "orthopedic", 75000⟩),
   ("heart", ⟨true, "cardiac", 200000⟩),
   ("surgery", ⟨true, "general", 50000⟩),
   ("cancer", ⟨true, "oncology", 500000⟩),
   ("dental", ⟨false, "dental", 0⟩),
   ("cosmetic", ⟨false, "cosmetic", 0⟩)]

/-- A matched chunk as handed to `_make_decision` (the dicts built by
`search_similar_chunks`). -/
structure Chunk where
  document : String
  chunk : String
  similarity : ℚ
  chunk_index : Nat
deriving DecidableEq, Repr

/-- The decision record built by `_make_decision`: running decision,
amount and ordered factor list. -/
structure DecisionResult where
  decision : String
  amount : ℚ
  factors : List String
deriving DecidableEq, Repr

/-- Rule 1 of `_make_decision`: `policy_duration = parsed_info.get(…, 0)`;
the rule fires only when the value is truthy (non-zero) and below the
6-month minimum. -/
def durationStep (p : ParsedQuery) (st : DecisionResult) : DecisionResult :=
  let pd := p.policy_duration.getD 0
  if pd ≠ 0 ∧ pd < minPolicyDurationMonths then
    { decision := "rejected", amount := 0
      factors := st.factors ++
        ["Policy duration (" ++ toString pd ++
         " months) is less than minimum required (" ++
         toString minPolicyDurationMonths ++ " months)"] }
  else st

/-- Rule 2: age checks, guarded by `if age and decision == "approved"`
(so a zero age is skipped by Python truthiness). -/
def ageStep (p : ParsedQuery) (st : DecisionResult) : DecisionResult :=
  match p.age with
  | none => st
  | some a =>
    if a ≠ 0 ∧ st.decision = "approved" then
      if a > maxAgePremium then
        { decision := "rejected", amount := 0
          factors := st.factors ++
            ["Age (" ++ toString a ++ ") exceeds maximum coverage age (" ++
             toString maxAgePremium ++ ")"] }
      else if a > maxAgeStandard then
        { st with amount := st.amount * agePenaltyFactor
                  factors := st.factors ++
                    ["Age penalty applied for age " ++ toString a] }
      else st
    else st

/-- Rule 3: procedure coverage, guarded by
`if procedure and decision == "approved"`. -/
def procedureStep (p : ParsedQuery) (st : DecisionResult) : DecisionResult :=
  match p.procedure with
  | none => st
  | some proc =>
    if proc ≠ "" ∧ st.decision = "approved" then
      match procedureMappings.lookup proc with
      | some info =>
        if info.covered then
          { st with amount := info.base_amount
                    factors := st.factors ++
                      [titleStr proc ++ " surgery is covered under " ++
                       info.category ++ " category"] }
        else
          { decision := "rejected", amount := 0
            factors := st.factors ++
              [titleStr proc ++ " is not covered under policy"] }
      | none => st
    else st

/-- Fuel-indexed body of `commaTail` (structural recursion on the fuel;
every step strictly shortens the list, so the initial length is a
sufficient fuel). -/
def commaTailAux : Nat → List Char → List Char
  | 0, _ => []
  | fuel + 1, ',' :: c :: r =>
    if c.isDigit then
      (c :: r.takeWhile Char.isDigit) ++
        commaTailAux fuel (r.dropWhile Char.isDigit)
    else []
  | _ + 1, _ => []

/-- Concatenated digit groups of `(?:,\d+)*` after the leading digit run
of the coverage pattern (commas removed, as by `.replace(',', '')`). -/
def commaTail (s : List Char) : List Char := commaTailAux s.length s

/-- Match of the capture group `(\d+(?:,\d+)*)` at one position, returning
`int(group(1).replace(',', ''))`. -/
def digitsAt (s : List Char) : Option Nat :=
  let ds := s.takeWhile Char.isDigit
  if ds.isEmpty then none
  else some (digitsToNat (ds ++ commaTail (s.dropWhile Char.isDigit)))

/-- Match of `coverage[^:]*:\s*(?:rs\.?\s*)?(\d+(?:,\d+)*)` at one position
of the (lowered) chunk text: `[^:]*` can only stop at the first colon,
`\s*` is maximal, and the optional `rs\.?\s*` group backtracks to empty
when no digits follow it. -/
def covAt (s : List Char) : Option Nat :=
  if pfx "coverage".toList s then
    match (s.drop 8).dropWhile (fun c => c ≠ ':') with
    | ':' :: s2 =>
      let s3 := s2.dropWhile Char.isWhitespace
      let cand :=
        if pfx "rs".toList s3 then
          let s5 := s3.drop 2
          let s6 := match s5 with
            | '.' :: r => r
            | _ => s5
          s6.dropWhile Char.isWhitespace
        else s3
      match digitsAt cand with
      | some n => some n
      | none => digitsAt s3
    | _ => none
  else none

/-- `re.search` of the coverage pattern over a chunk text. -/
def covSearch (t : List Char) : Option Nat := scanFirst covAt t

/-- The exclusion condition of the chunk loop:
`("exclusion" in chunk_text or "not covered" in chunk_text) and procedure
and procedure.lower() in chunk_text`. -/
def exclCond (proc : Option String) (t : List Char) : Bool :=
  (occursIn "exclusion".toList t || occursIn "not covered".toList t) &&
    (match proc with
     | some p => !(p = "") && occursIn (lowerChars p) t
     | none => false)

/-- The coverage-override rule of the chunk loop: raise the amount of a
still-approved claim to an extracted coverage figure exceeding it. -/
def covUpdate (st : DecisionResult) (t : List Char) (doc : String) :
    DecisionResult :=
  match covSearch t with
  | some n =>
    if st.decision = "approved" ∧ (n : ℚ) > st.amount then
      { st with amount := (n : ℚ)
                factors := st.factors ++
                  ["Coverage amount updated based on policy document: " ++ doc] }
    else st
  | none => st

/-- The `for chunk in relevant_chunks` loop of `_make_decision`: the
exclusion rule rejects and `break`s when the chunk text mentions
exclusions and contains the (truthy) procedure; otherwise the coverage
rule may raise the amount, and scanning continues. -/
def chunkLoop (proc : Option String) (st : DecisionResult) :
    List Chunk → DecisionResult
  | [] => st
  | ch :: rest =>
    let t := lowerChars ch.chunk
    if exclCond proc t then
      { decision := "rejected", amount := 0
        factors := st.factors ++
          ["Procedure found in exclusions: " ++ ch.document] }
    else chunkLoop proc (covUpdate st t ch.document) rest

/-- `_make_decision`: starts approved at the base coverage amount and
applies the fixed rule sequence. -/
def makeDecision (p : ParsedQuery) (chunks : List Chunk) : DecisionResult :=
  chunkLoop p.procedure
    (procedureStep p (ageStep p (durationStep p
      { decision := "approved", amount := baseCoverageAmount, factors := [] })))
    chunks

/-! ## Document processor (`document_processor.py`)

`process_document`'s PDF extraction (`fitz`) and the IO around it are
outside the embedding; ingestion is modelled from the point where the
cleaned text is in hand (`_create_semantic_chunks` onwards). The MD5 key
`hashlib.md5(pdf_path)` is modelled by the path itself (an injective
stand-in), and `os.path.basename` by the identity on the supplied name;
both are display/bookkeeping details no claim depends on. -/

/-- Fuel-indexed whitespace-run splitter over character lists (structural
recursion on the fuel; every step strictly shortens the list, so the
initial length is a sufficient fuel). -/
def splitWsAux : Nat → List Char → List String
  | _, [] => []
  | 0, _ :: _ => []
  | fuel + 1, c :: r =>
    if c.isWhitespace then splitWsAux fuel r
    else
      String.mk (c :: r.takeWhile fun d => !d.isWhitespace) ::
        splitWsAux fuel (r.dropWhile fun d => !d.isWhitespace)

/-- Python's `str.split()` (split on whitespace runs, no empty parts). -/
def pySplit (s : String) : List String := splitWsAux s.data.length s.data

/-- Python's `str.strip()`: drop whitespace from both ends. -/
def pyStrip (s : String) : String :=
  String.mk
    (((s.data.dropWhile Char.isWhitespace).reverse.dropWhile
      Char.isWhitespace).reverse)

/-- The fixed vocabulary of `_generate_embeddings`. -/
def insuranceTerms : List String :=
  ["coverage", "premium", "policy", "claim", "benefit", "deductible",
   "surgery", "treatment", "medical", "hospital", "doctor", "patient",
   "age", "year", "month", "amount", "rupees", "rs", "cost", "fee"]

/-- The per-chunk feature vector of `_generate_embeddings`: substring
counts of the fixed terms over the lowered text, followed by character
length and word count. -/
def featureVector (chunk : String) : List ℚ :=
  let t := lowerChars chunk
  (insuranceTerms.map fun term => (countOcc term.toList t : ℚ)) ++
    [(chunk.data.length : ℚ), ((pySplit chunk).length : ℚ)]

/-- `_generate_embeddings` over a chunk list. -/
def generateEmbeddings (chunks : List String) : List (List ℚ) :=
  chunks.map featureVector

/-- Fuel-indexed word windows of `_create_semantic_chunks`:
`range(0, len(words), chunk_size - overlap)` with window 500 and stride
400 (structural recursion on the fuel; each step drops 400 ≥ 1 words, so
the initial length is a sufficient fuel). -/
def chunkGroupsAux : Nat → List String → List (List String)
  | _, [] => []
  | 0, _ :: _ => []
  | fuel + 1, w :: ws =>
    (w :: ws).take 500 :: chunkGroupsAux fuel ((w :: ws).drop 400)

/-- The word windows of `_create_semantic_chunks`. -/
def chunkGroups (ws : List String) : List (List String) :=
  chunkGroupsAux ws.length ws

/-- `_create_semantic_chunks` on cleaned text (default window 500,
overlap 100): stripped, non-empty joined windows. -/
def createSemanticChunks (text : String) : List String :=
  (chunkGroups (pySplit text)).filterMap fun ws =>
    let c := pyStrip (String.intercalate " " ws)
    if c ≠ "" then some c else none

/-- One stored document: filename, chunks and their stored feature
vectors (`document_data["chunks"]`/`["embeddings"]`). -/
structure DocData where
  filename : String
  chunks : List String
  embeddings : List (List ℚ)
deriving DecidableEq, Repr

/-- `_initialize_embedding_model`: both branches assign `None`. -/
def initializeEmbeddingModel : Option (String → List ℚ) := none

/-- The `DocumentProcessor` state: the (would-be) embedding model, and the
`document_chunks` dict as an insertion-ordered association list. -/
structure DocumentProcessor where
  embedding_model : Option (String → List ℚ)
  document_chunks : List (String × DocData)

/-- `DocumentProcessor.__init__`. -/
def mkDocumentProcessor : DocumentProcessor :=
  { embedding_model := initializeEmbeddingModel, document_chunks := [] }

/-- Dict assignment `self.document_chunks[doc_id] = …` (replace in place,
else append; Python dicts keep the original position on overwrite). -/
def storeDoc (l : List (String × DocData)) (k : String) (d : DocData) :
    List (String × DocData) :=
  match l with
  | [] => [(k, d)]
  | (k', d') :: r =>
    if k' = k then (k, d) :: r else (k', d') :: storeDoc r k d

/-- `process_document` from the cleaned text onwards: chunk, embed, and
store under the document key. The embedding model is not touched. -/
def processDocumentText (dp : DocumentProcessor) (path : String)
    (text : String) : DocumentProcessor :=
  let chunks := createSemanticChunks text
  { dp with document_chunks :=
      storeDoc dp.document_chunks path ⟨path, chunks, generateEmbeddings chunks⟩ }

/-- States of the document processor reachable in the program: built by
`__init__` and any sequence of document ingestions. -/
inductive Reachable : DocumentProcessor → Prop
  | init : Reachable mkDocumentProcessor
  | ingest {dp : DocumentProcessor} (path text : String) :
      Reachable dp → Reachable (processDocumentText dp path text)

/-- Dot product (`np.dot` of a stored vector with the query vector;
`zipWith` truncation never matters on the equal-length vectors the code
builds). -/
def dotQ (a b : List ℚ) : ℚ := (List.zipWith (· * ·) a b).sum

/-- Python slice `l[-k:]` (note `l[-0:]` is the whole list). -/
def pyLastSlice (k : Nat) (l : List α) : List α :=
  if k = 0 then l else l.drop (l.length - k)

/-- Insertion step of an ascending stable argsort by value. -/
def insertAsc (vals : List ℚ) (i : Nat) : List Nat → List Nat
  | [] => [i]
  | j :: r =>
    if vals.getD j 0 ≤ vals.getD i 0 then j :: insertAsc vals i r
    else i :: j :: r

/-- `np.argsort` (ascending) as a stable insertion sort on indices.
NumPy's default quicksort leaves tie order unspecified; this branch of
the code is unreachable (the embedding model is always `None`), so the
choice is immaterial. -/
def argsortAsc (vals : List ℚ) : List Nat :=
  (List.range vals.length).foldr (insertAsc vals) []

/-- Insertion step of the stable descending sort
`similar_chunks.sort(key=…similarity, reverse=True)`. -/
def insertDesc (c : Chunk) : List Chunk → List Chunk
  | [] => [c]
  | d :: r =>
    if c.similarity ≤ d.similarity then d :: insertDesc c r else c :: d :: r

/-- Stable descending sort by similarity. -/
def sortDesc (l : List Chunk) : List Chunk := l.foldr insertDesc []

/-- `search_similar_chunks(query, top_k)`: returns `[]` immediately when
the embedding model is falsy; otherwise encodes the query with the model,
takes each document's `top_k` best dot-product scores above 0.5, and
returns the overall best `top_k` sorted descending. -/
def searchSimilarChunks (dp : DocumentProcessor) (query : String)
    (top_k : Nat) : List Chunk :=
  match dp.embedding_model with
  | none => []
  | some enc =>
    let qe := enc query
    let collected := dp.document_chunks.foldl (fun acc kv =>
      let dd := kv.2
      if dd.embeddings.isEmpty || dd.chunks.isEmpty then acc
      else
        let sims := dd.embeddings.map fun e => dotQ e qe
        let topIdx := (pyLastSlice top_k (argsortAsc sims)).reverse
        acc ++ topIdx.filterMap fun i =>
          if sims.getD i 0 > 1 / 2 then
            some ⟨dd.filename, dd.chunks.getD i "", sims.getD i 0, i⟩
          else none) []
    (sortDesc collected).take top_k

/-- Modelled from the spec's query contract, for comparison with the
code: "`search(query_text, top_k)` computes the same fixed feature vector
for the query text, scores every stored chunk via dot-product against the
query vector, filters to scores > 0.5, sorts descending by score, returns
up to top_k results tagged with source document name and chunk index." -/
def specSearch (dp : DocumentProcessor) (query : String) (top_k : Nat) :
    List Chunk :=
  let qv := featureVector query
  let scored := dp.document_chunks.foldl (fun acc kv =>
    acc ++ (kv.2.embeddings.enum.filterMap fun ie =>
      let s := dotQ ie.2 qv
      if s > 1 / 2 then
        some ⟨kv.2.filename, kv.2.chunks.getD ie.1 "", s, ie.1⟩
      else none)) []
  (sortDesc scored).take top_k

/-! ## Confidence score, justification and response assembly -/

/-- Count of the `required_fields = ["age", "procedure",
"policy_duration"]` that are `is not None` in the parsed record. -/
def completedCount (p : ParsedQuery) : Nat :=
  (if p.age.isSome then 1 else 0) +
    (if p.procedure.isSome then 1 else 0) +
    (if p.policy_duration.isSome then 1 else 0)

/-- Average similarity over a chunk list (used only when non-empty). -/
def avgSimilarity (chunks : List Chunk) : ℚ :=
  (chunks.map Chunk.similarity).sum / (chunks.length : ℚ)

/-- `_calculate_confidence_score`: completeness/3 × 0.3, average
similarity × 0.4 (0 when no chunks), clarity `min(factors/3, 1) × 0.3`
(flat 0.1 when no factors), summed and clamped into [0, 1]. -/
def calcConfidence (p : ParsedQuery) (chunks : List Chunk)
    (r : DecisionResult) : ℚ :=
  let f1 := ((completedCount p : ℚ) / 3) * (3 / 10)
  let f2 := if chunks.isEmpty then 0 else avgSimilarity chunks * (2 / 5)
  let f3 :=
    if r.factors.isEmpty then 1 / 10
    else min ((r.factors.length : ℚ) / 3) 1 * (3 / 10)
  min (max (f1 + f2 + f3) 0) 1

/-- Modelled from the spec sentence behind claim C5, for comparison with
the code: "weighted sum of three components, each independently clamped
into [0,1] before weighting, final sum clamped to [0,1]" (weights 0.3,
0.4, 0.3; flat 0.1 clarity when there are no factors, as the spec also
states). -/
def specConfidence (p : ParsedQuery) (chunks : List Chunk)
    (r : DecisionResult) : ℚ :=
  let clamp01 : ℚ → ℚ := fun x => min (max x 0) 1
  let f1 := clamp01 ((completedCount p : ℚ) / 3) * (3 / 10)
  let f2 :=
    (if chunks.isEmpty then 0 else clamp01 (avgSimilarity chunks)) * (2 / 5)
  let f3 :=
    if r.factors.isEmpty then 1 / 10
    else clamp01 (min ((r.factors.length : ℚ) / 3) 1) * (3 / 10)
  clamp01 (f1 + f2 + f3)

/-- Amount/similarity rendering. Python formats floats with `,.2f`/`.2f`;
the rendering is display-only (no claim and no rule reads it back), so
the rational is rendered directly. -/
def fmtAmount (q : ℚ) : String := toString q

/-- The decision banner line of `_generate_justification`. -/
def bannerLine (r : DecisionResult) : String :=
  if r.decision = "approved" then
    "✅ Claim APPROVED for amount: Rs. " ++ fmtAmount r.amount
  else if r.decision = "rejected" then "❌ Claim REJECTED"
  else "⚠️ Claim requires manual review"

/-- The numbered factor lines (`enumerate(factors, 1)`). -/
def factorLines (r : DecisionResult) : List String :=
  if r.factors.isEmpty then []
  else "\n📋 Decision Factors:" ::
    (r.factors.enum.map fun nf => toString (nf.1 + 1) ++ ". " ++ nf.2)

/-- The extracted-information lines: each field is shown only when truthy
(`if parsed_info.get(…):`), in the fixed field order. -/
def infoLines (p : ParsedQuery) : List String :=
  "\n📝 Extracted Information:" ::
    ((match p.age with
      | some a => if a ≠ 0 then ["• Age: " ++ toString a ++ " years"] else []
      | none => []) ++
     (match p.gender with
      | some g => if g ≠ "" then ["• Gender: " ++ titleStr g] else []
      | none => []) ++
     (match p.procedure with
      | some pr => if pr ≠ "" then ["• Procedure: " ++ titleStr pr] else []
      | none => []) ++
     (match p.location with
      | some l => if l ≠ "" then ["• Location: " ++ l] else []
      | none => []) ++
     (match p.policy_duration with
      | some d =>
        if d ≠ 0 then
          ["• Policy Duration: " ++ toString d ++ " " ++
           p.policy_duration_unit.getD "months"]
        else []
      | none => []))

/-- The referenced-document lines (top 3, with relevance). -/
def chunkLines (chunks : List Chunk) : List String :=
  if chunks.isEmpty then []
  else ("\n📄 Referenced Documents (" ++ toString chunks.length ++ "):") ::
    ((chunks.take 3).enum.map fun nc =>
      toString (nc.1 + 1) ++ ". " ++ nc.2.document ++ " (relevance: " ++
        fmtAmount nc.2.similarity ++ ")")

/-- `_generate_justification`: banner, factors, extracted info, referenced
documents, joined with newlines. (The `if parsed_info:` guard is always
satisfied by the truthy seven-key dict the parser builds, so the info
header is unconditional.) -/
def genJustification (p : ParsedQuery) (chunks : List Chunk)
    (r : DecisionResult) : String :=
  String.intercalate "\n"
    (bannerLine r :: (factorLines r ++ infoLines p ++ chunkLines chunks))

/-- One formatted referenced clause. -/
structure Clause where
  document : String
  content : String
  relevance_score : ℚ
  chunk_index : Nat
deriving DecidableEq, Repr

/-- `_format_referenced_clauses`: excerpt truncated to 300 characters
with an ellipsis. -/
def formatReferencedClauses (chunks : List Chunk) : List Clause :=
  chunks.map fun ch =>
    { document := ch.document
      content :=
        if ch.chunk.data.length > 300 then
          String.mk (ch.chunk.data.take 300) ++ "..."
        else ch.chunk
      relevance_score := ch.similarity
      chunk_index := ch.chunk_index }

/-- The `processing_metadata` record (the wall-clock timestamp is IO and
is omitted). -/
structure Metadata where
  chunks_analyzed : Nat
  decision_factors : List String
deriving DecidableEq, Repr

/-- The response record of `process_query`; the error path returns empty
dicts for `parsed_info` and `processing_metadata`, modelled as `none`. -/
structure QueryResponse where
  decision : String
  amount : ℚ
  justification : String
  confidence_score : ℚ
  referenced_clauses : List Clause
  parsed_info : Option ParsedQuery
  metadata : Option Metadata
deriving DecidableEq, Repr

/-- The `except Exception` branch of `process_query`. -/
def errorResponse (msg : String) : QueryResponse :=
  { decision := "error", amount := 0
    justification := "Error processing query: " ++ msg
    confidence_score := 0, referenced_clauses := []
    parsed_info := none, metadata := none }

/-- The success body of `process_query` (steps 1–6). -/
def processQueryPure (dp : DocumentProcessor) (query : String) :
    QueryResponse :=
  let parsed := parseQueryDetails query
  let chunks := searchSimilarChunks dp query 5
  let result := makeDecision parsed chunks
  { decision := result.decision
    amount := result.amount
    justification := genJustification parsed chunks result
    confidence_score := calcConfidence parsed chunks result
    referenced_clauses := formatReferencedClauses chunks
    parsed_info := some parsed
    metadata := some ⟨chunks.length, result.factors⟩ }

/-- The `try`/`except` shape of `process_query`: a raising body is caught
and converted to the error response carrying the exception message. -/
def processQueryTry (body : Except String QueryResponse) : QueryResponse :=
  match body with
  | .ok r => r
  | .error msg => errorResponse msg

/-- `process_query(query, session_id)`. In the embedding every pipeline
step is total, so the body is an `Except.ok`; `session_id` is accepted
and unused, exactly as in the code (the response does not mention it). -/
def processQuery (dp : DocumentProcessor) (query : String)
    (_sessionId : String) : QueryResponse :=
  processQueryTry (Except.ok (processQueryPure dp query))

/-! ## Helper lemmas -/

/-- Every reachable document-processor state has `embedding_model = None`:
`_initialize_embedding_model` assigns `None` on both of its branches and
nothing else ever writes the attribute. -/
theorem reachable_embedding_none {dp : DocumentProcessor}
    (h : Reachable dp) : dp.embedding_model = none := by
  induction h with
  | init => rfl
  | ingest path text _ ih => simpa [processDocumentText] using ih

/-- The age rule is a no-op unless the running decision is approved. -/
theorem ageStep_not_approved (p : ParsedQuery) (st : DecisionResult)
    (h : st.decision ≠ "approved") : ageStep p st = st := by
  unfold ageStep
  cases p.age with
  | none => rfl
  | some a => simp [h]

/-- The procedure rule is a no-op unless the running decision is
approved. -/
theorem procedureStep_not_approved (p : ParsedQuery) (st : DecisionResult)
    (h : st.decision ≠ "approved") : procedureStep p st = st := by
  unfold procedureStep
  cases p.procedure with
  | none => rfl
  | some pr => simp [h]

/-- The procedure rule is a no-op when no procedure was parsed. -/
theorem procedureStep_no_proc (q : ParsedQuery) (st : DecisionResult)
    (h : q.procedure = none) : procedureStep q st = st := by
  unfold procedureStep
  rw [h]

/-- The coverage-override rule never changes the decision. -/
theorem covUpdate_decision (st : DecisionResult) (t : List Char)
    (doc : String) : (covUpdate st t doc).decision = st.decision := by
  unfold covUpdate
  split
  · split <;> rfl
  · rfl

/-- The coverage-override rule is a no-op unless the running decision is
approved. -/
theorem covUpdate_not_approved (st : DecisionResult) (t : List Char)
    (doc : String) (h : st.decision ≠ "approved") :
    covUpdate st t doc = st := by
  unfold covUpdate
  split
  · split
    · next hc => exact absurd hc.1 h
    · rfl
  · rfl

/-- The coverage-override rule only appends to the factor list. -/
theorem covUpdate_factor_mem (st : DecisionResult) (t : List Char)
    (doc : String) (f : String) (hf : f ∈ st.factors) :
    f ∈ (covUpdate st t doc).factors := by
  unfold covUpdate
  split
  · split
    · exact List.mem_append_left _ hf
    · exact hf
  · exact hf

/-- Once rejected, the chunk loop keeps the decision rejected: the
exclusion branch re-asserts rejection and the coverage branch requires an
approved decision. -/
theorem chunkLoop_rejected (proc : Option String) (st : DecisionResult)
    (cs : List Chunk) (h : st.decision = "rejected") :
    (chunkLoop proc st cs).decision = "rejected" := by
  induction cs generalizing st with
  | nil => exact h
  | cons c rest ih =>
    unfold chunkLoop
    dsimp only
    split
    · rfl
    · apply ih
      rw [covUpdate_not_approved]
      · exact h
      · rw [h]
        decide

/-- The chunk loop only appends to the factor list. -/
theorem chunkLoop_factor_mem (proc : Option String) (st : DecisionResult)
    (cs : List Chunk) (f : String) (hf : f ∈ st.factors) :
    f ∈ (chunkLoop proc st cs).factors := by
  induction cs generalizing st with
  | nil => exact hf
  | cons c rest ih =>
    unfold chunkLoop
    dsimp only
    split
    · exact List.mem_append_left _ hf
    · exact ih _ (covUpdate_factor_mem _ _ _ _ hf)

/-- A rejected, zero-amount state stays at amount zero through the chunk
loop. -/
theorem chunkLoop_rejected_amount (proc : Option String)
    (st : DecisionResult) (cs : List Chunk) (hd : st.decision = "rejected")
    (ha : st.amount = 0) : (chunkLoop proc st cs).amount = 0 := by
  induction cs generalizing st with
  | nil => exact ha
  | cons c rest ih =>
    unfold chunkLoop
    dsimp only
    split
    · rfl
    · rw [covUpdate_not_approved]
      · exact ih st hd ha
      · rw [hd]
        decide

/-- The running invariant of the decision state: the amount is
non-negative, and a rejected decision comes with a zero amount. -/
def DInv (st : DecisionResult) : Prop :=
  0 ≤ st.amount ∧ (st.decision = "rejected" → st.amount = 0)

/-- Every base amount of the procedure table is non-negative. -/
theorem lookup_base_nonneg (s : String) (info : ProcedureInfo)
    (h : procedureMappings.lookup s = some info) : 0 ≤ info.base_amount := by
  simp only [procedureMappings, List.lookup] at h
  repeat' split at h
  all_goals first
    | (cases h; norm_num)
    | cases h

/-- Rule 1 preserves the decision invariant. -/
theorem durationStep_inv (p : ParsedQuery) (st : DecisionResult)
    (h : DInv st) : DInv (durationStep p st) := by
  unfold durationStep
  dsimp only
  split
  · exact ⟨le_refl 0, fun _ => rfl⟩
  · exact h

/-- Rule 2 preserves the decision invariant. -/
theorem ageStep_inv (p : ParsedQuery) (st : DecisionResult)
    (h : DInv st) : DInv (ageStep p st) := by
  unfold ageStep
  cases p.age with
  | none => exact h
  | some a =>
    dsimp only
    by_cases hc : a ≠ 0 ∧ st.decision = "approved"
    · rw [if_pos hc]
      by_cases h75 : a > maxAgePremium
      · rw [if_pos h75]
        exact ⟨le_refl 0, fun _ => rfl⟩
      · rw [if_neg h75]
        by_cases h60 : a > maxAgeStandard
        · rw [if_pos h60]
          refine ⟨mul_nonneg h.1 (by norm_num [agePenaltyFactor]),
            fun hr => ?_⟩
          have hr' : st.decision = "rejected" := hr
          rw [hc.2] at hr'
          exact absurd hr' (by decide)
        · rw [if_neg h60]
          exact h
    · rw [if_neg hc]
      exact h

/-- Rule 3 preserves the decision invariant. -/
theorem procedureStep_inv (p : ParsedQuery) (st : DecisionResult)
    (h : DInv st) : DInv (procedureStep p st) := by
  unfold procedureStep
  cases p.procedure with
  | none => exact h
  | some pr =>
    dsimp only
    by_cases hc : pr ≠ "" ∧ st.decision = "approved"
    · rw [if_pos hc]
      cases hl : procedureMappings.lookup pr with
      | none => exact h
      | some info =>
        dsimp only
        by_cases hcov : info.covered
        · rw [if_pos hcov]
          refine ⟨lookup_base_nonneg _ _ hl, fun hr => ?_⟩
          have hr' : st.decision = "rejected" := hr
          rw [hc.2] at hr'
          exact absurd hr' (by decide)
        · rw [if_neg hcov]
          exact ⟨le_refl 0, fun _ => rfl⟩
    · rw [if_neg hc]
      exact h

/-- The coverage-override rule preserves the decision invariant. -/
theorem covUpdate_inv (st : DecisionResult) (t : List Char) (doc : String)
    (h : DInv st) : DInv (covUpdate st t doc) := by
  unfold covUpdate
  split
  · split
    · next hcond =>
      refine ⟨Nat.cast_nonneg _, fun hr => ?_⟩
      rw [hcond.1] at hr
      exact absurd hr (by decide)
    · exact h
  · exact h

/-- The chunk loop preserves the decision invariant. -/
theorem chunkLoop_inv (proc : Option String) (st : DecisionResult)
    (cs : List Chunk) (h : DInv st) : DInv (chunkLoop proc st cs) := by
  induction cs generalizing st with
  | nil => exact h
  | cons c rest ih =>
    unfold chunkLoop
    dsimp only
    split
    · exact ⟨le_refl 0, fun _ => rfl⟩
    · exact ih _ (covUpdate_inv _ _ _ h)

/-- On approved states the coverage-override rule computes a running
maximum, so it is monotone in the incoming amount. -/
theorem covUpdate_mono (a b : DecisionResult) (t : List Char) (doc : String)
    (hda : a.decision = "approved") (hdb : b.decision = "approved")
    (hab : a.amount ≤ b.amount) :
    (covUpdate a t doc).amount ≤ (covUpdate b t doc).amount := by
  unfold covUpdate
  split
  · next n _ =>
    by_cases hna : (n : ℚ) > a.amount <;> by_cases hnb : (n : ℚ) > b.amount <;>
      simp [hda, hdb, hna, hnb] <;> linarith
  · exact hab

/-- With no procedure, the chunk loop never fires the exclusion rule and
its final amount is monotone in the incoming amount (for approved
states). -/
theorem chunkLoop_none_mono (cs : List Chunk) (a b : DecisionResult)
    (hda : a.decision = "approved") (hdb : b.decision = "approved")
    (hab : a.amount ≤ b.amount) :
    (chunkLoop none a cs).amount ≤ (chunkLoop none b cs).amount := by
  induction cs generalizing a b with
  | nil => exact hab
  | cons c rest ih =>
    unfold chunkLoop
    dsimp only
    have hexcl : exclCond none (lowerChars c.chunk) = false := by
      simp [exclCond]
    rw [hexcl]
    simp only [Bool.false_eq_true, if_false]
    exact ih _ _ (by rw [covUpdate_decision]; exact hda)
      (by rw [covUpdate_decision]; exact hdb)
      (covUpdate_mono _ _ _ _ hda hdb hab)

attribute [local semireducible] Rat.mul Rat.add Rat.sub Rat.inv

/-! ## Small string lemmas for the error-path claim -/

/-- A list is a prefix of itself. -/
theorem pfx_self : ∀ l : List Char, pfx l l = true
  | [] => rfl
  | c :: r => by simp [pfx, pfx_self r]

/-- A list occurs in itself. -/
theorem occursIn_self (p : List Char) : occursIn p p = true := by
  cases p with
  | nil => rfl
  | cons c r => simp [occursIn, pfx_self]

/-- A list occurs in anything that ends with it. -/
theorem occursIn_append_right (x p : List Char) :
    occursIn p (x ++ p) = true := by
  induction x with
  | nil => exact occursIn_self p
  | cons c r ih =>
    cases hp : p ++ [] with
    | _ => simp [occursIn, ih]

/-- The two decision strings are distinct (used to discharge guards on
records that mention free variables, where `decide` is unavailable). -/
theorem rejected_ne_approved : ("rejected" : String) ≠ "approved" := by
  decide

/-! ## The claims -/

/-- The ingested state used to separate the code's search from the
spec's search contract: one document whose single chunk mentions several
insurance terms. -/
def c1State : DocumentProcessor :=
  processDocumentText mkDocumentProcessor "policy.pdf" "coverage policy premium"

/-- Claim C1 (counterexample): the spec's query contract says the search
scores stored chunks against the query's keyword-count vector and
returns those above threshold, but on a reachable store holding a
high-scoring chunk the code returns the empty list (the embedding model
is `None`), while the search described by the spec would return the
chunk. -/
theorem c1_counterexample :
    searchSimilarChunks c1State "coverage" 5 = [] ∧
    specSearch c1State "coverage" 5 =
      [⟨"policy.pdf", "coverage policy premium", 189, 0⟩] ∧
    searchSimilarChunks c1State "coverage" 5 ≠ specSearch c1State "coverage" 5 := by
  refine ⟨rfl, by decide, ?_⟩
  rw [show searchSimilarChunks c1State "coverage" 5 = [] from rfl]
  decide

/-- Claim C1 (amended): for every reachable state of the chunk store and
every query and top_k, `search_similar_chunks` returns the empty list:
`_initialize_embedding_model` sets the model to `None` unconditionally
and the search exits early on a falsy model, so the keyword-vector
scoring the spec describes is never performed. -/
theorem c1_amended_search_empty (dp : DocumentProcessor) (h : Reachable dp)
    (q : String) (k : Nat) : searchSimilarChunks dp q k = [] := by
  unfold searchSimilarChunks
  rw [reachable_embedding_none h]

/-- Witness for C1: the amended theorem applied to a concrete reachable
state. -/
theorem c1_witness : searchSimilarChunks c1State "knee surgery" 5 = [] :=
  c1_amended_search_empty c1State
    (Reachable.ingest "policy.pdf" "coverage policy premium" Reachable.init)
    "knee surgery" 5

/-- Claim C3: the spec's example expects `"46-year-old male, knee
surgery, policy 3 months old"` to parse policy_duration = 3 and be
rejected; the code parses the age phrase `46-year-old` with the
year-duration pattern (552 months) — the month pattern fails on the
plural `"months old"` — and approves the claim at the knee base amount. -/
theorem c3_code_behavior :
    (parseQueryDetails
      "46-year-old male, knee surgery, policy 3 months old").policy_duration
      = some 552 ∧
    makeDecision
      (parseQueryDetails "46-year-old male, knee surgery, policy 3 months old")
      [] =
      ⟨"approved", 75000, ["Knee surgery is covered under orthopedic category"]⟩ := by
  constructor
  · decide
  · decide

/-- Claim C4 (counterexample): with all three required fields absent, no
chunks and no factors, the code returns 0.1 — the clarity default is
appended flat, not weighted by 0.3 — and not the 0.03 the claim states. -/
theorem c4_counterexample :
    calcConfidence ⟨none, none, none, none, none, none, ""⟩ []
      ⟨"approved", 50000, []⟩ = 1 / 10 ∧
    (1 : ℚ) / 10 ≠ 3 / 100 := by
  constructor
  · decide
  · decide

/-- Claim C4 (amended): with age, procedure and policy_duration absent,
no chunks and an empty factor list, `_calculate_confidence_score`
returns 0.1 (the flat, unweighted clarity default). -/
theorem c4_amended_confidence (p : ParsedQuery) (chunks : List Chunk)
    (r : DecisionResult) (ha : p.age = none) (hp : p.procedure = none)
    (hd : p.policy_duration = none) (hc : chunks = [])
    (hf : r.factors = []) : calcConfidence p chunks r = 1 / 10 := by
  subst hc
  simp only [calcConfidence, completedCount, ha, hp, hd, hf, Option.isSome_none,
    Bool.false_eq_true, if_false, List.isEmpty_nil, if_true, Nat.cast_zero]
  norm_num

/-- Witness for C4: the amended theorem applied at a concrete record. -/
theorem c4_witness :
    calcConfidence ⟨none, some "male", none, some "Pune", none, none, "q"⟩ []
      ⟨"approved", 50000, []⟩ = 1 / 10 :=
  c4_amended_confidence _ _ _ rfl rfl rfl rfl rfl

/-- Claim C6 (counterexample): a parsed record with policy_duration
present and equal to 0 (reachable, e.g. from `"0-month-old policy"`) is
not rejected: the guard `if policy_duration and …` treats a present zero
like an absent field, so the decision stays approved at the base
amount. -/
theorem c6_counterexample :
    makeDecision ⟨none, none, none, none, some 0, some "months", ""⟩ [] =
      ⟨"approved", 50000, []⟩ ∧
    (makeDecision ⟨none, none, none, none, some 0, some "months", ""⟩
      []).decision ≠ "rejected" := by
  constructor
  · decide
  · decide

/-- After a rejection with amount 0, the remaining rules (age, procedure,
chunk scan) keep the rejection, the zero amount, and the factors already
recorded. -/
theorem laterSteps_keep_rejected (p : ParsedQuery) (cs : List Chunk)
    (st : DecisionResult) (hd : st.decision = "rejected")
    (ha : st.amount = 0) :
    (chunkLoop p.procedure (procedureStep p (ageStep p st)) cs).decision
      = "rejected" ∧
    (chunkLoop p.procedure (procedureStep p (ageStep p st)) cs).amount = 0 ∧
    ∀ f ∈ st.factors,
      f ∈ (chunkLoop p.procedure (procedureStep p (ageStep p st)) cs).factors
    := by
  have hna : st.decision ≠ "approved" := by
    rw [hd]
    decide
  rw [ageStep_not_approved _ _ hna, procedureStep_not_approved _ _ hna]
  exact ⟨chunkLoop_rejected _ _ _ hd, chunkLoop_rejected_amount _ _ _ hd ha,
    fun f hf => chunkLoop_factor_mem _ _ _ _ hf⟩

/-- Claim C6 (amended): when policy_duration is present with a nonzero
normalized month value strictly below 6, `_make_decision` rejects with
amount 0 and appends the duration factor (which cites the 6-month
minimum); a present zero, however, is treated like an absent field. -/
theorem c6_amended_duration_reject (p : ParsedQuery) (chunks : List Chunk)
    (d : ℚ) (hp : p.policy_duration = some d) (hnz : d ≠ 0) (hlt : d < 6) :
    (makeDecision p chunks).decision = "rejected" ∧
    (makeDecision p chunks).amount = 0 ∧
    ("Policy duration (" ++ toString d ++
      " months) is less than minimum required (" ++
      toString minPolicyDurationMonths ++ " months)")
      ∈ (makeDecision p chunks).factors := by
  have hdur : durationStep p
      { decision := "approved", amount := baseCoverageAmount, factors := [] } =
      { decision := "rejected", amount := 0
        factors := ["Policy duration (" ++ toString d ++
          " months) is less than minimum required (" ++
          toString minPolicyDurationMonths ++ " months)"] } := by
    unfold durationStep
    rw [hp]
    simp only [Option.getD_some]
    rw [if_pos ⟨hnz, by simpa [minPolicyDurationMonths] using hlt⟩]
    simp
  unfold makeDecision
  rw [hdur]
  obtain ⟨h1, h2, h3⟩ := laterSteps_keep_rejected p chunks
    { decision := "rejected", amount := 0
      factors := ["Policy duration (" ++ toString d ++
        " months) is less than minimum required (" ++
        toString minPolicyDurationMonths ++ " months)"] } rfl rfl
  exact ⟨h1, h2, h3 _ (by simp)⟩

/-- Witness for C6: the amended theorem applied at a 3-month policy. -/
theorem c6_witness :
    (makeDecision ⟨none, none, none, none, some 3, some "months", "q"⟩
      []).decision = "rejected" ∧
    (makeDecision ⟨none, none, none, none, some 3, some "months", "q"⟩
      []).amount = 0 ∧
    ("Policy duration (" ++ toString (3 : ℚ) ++
      " months) is less than minimum required (" ++
      toString minPolicyDurationMonths ++ " months)")
      ∈ (makeDecision ⟨none, none, none, none, some 3, some "months", "q"⟩
        []).factors :=
  c6_amended_duration_reject _ [] 3 rfl (by norm_num) (by norm_num)

/-- Claim C2: on every reachable store state, `search_similar_chunks`
returns no chunks, so every `process_query` response has empty
referenced_clauses, `chunks_analyzed = 0`, and its decision, amount and
factors are exactly those of the chunk-free decision evaluation — which
equals the three parsed-field rules alone, i.e. the document-based
exclusion and coverage-override rules never fire. -/
theorem c2_pipeline_no_chunks (dp : DocumentProcessor) (q sid : String)
    (h : Reachable dp) :
    (processQuery dp q sid).referenced_clauses = [] ∧
    (processQuery dp q sid).metadata =
      some ⟨0, (makeDecision (parseQueryDetails q) []).factors⟩ ∧
    (processQuery dp q sid).decision =
      (makeDecision (parseQueryDetails q) []).decision ∧
    (processQuery dp q sid).amount =
      (makeDecision (parseQueryDetails q) []).amount ∧
    makeDecision (parseQueryDetails q) [] =
      procedureStep (parseQueryDetails q) (ageStep (parseQueryDetails q)
        (durationStep (parseQueryDetails q)
          { decision := "approved", amount := baseCoverageAmount,
            factors := [] })) := by
  have hs : searchSimilarChunks dp q 5 = [] := by
    unfold searchSimilarChunks
    rw [reachable_embedding_none h]
  unfold processQuery processQueryTry processQueryPure
  rw [hs]
  exact ⟨rfl, rfl, rfl, rfl, rfl⟩

/-- Witness for C2: the theorem applied to the freshly initialized
processor. -/
theorem c2_witness :
    (processQuery mkDocumentProcessor "46M knee surgery" "s").referenced_clauses
      = [] ∧
    (processQuery mkDocumentProcessor "46M knee surgery" "s").metadata =
      some ⟨0, (makeDecision (parseQueryDetails "46M knee surgery") []).factors⟩ ∧
    (processQuery mkDocumentProcessor "46M knee surgery" "s").decision =
      (makeDecision (parseQueryDetails "46M knee surgery") []).decision ∧
    (processQuery mkDocumentProcessor "46M knee surgery" "s").amount =
      (makeDecision (parseQueryDetails "46M knee surgery") []).amount ∧
    makeDecision (parseQueryDetails "46M knee surgery") [] =
      procedureStep (parseQueryDetails "46M knee surgery")
        (ageStep (parseQueryDetails "46M knee surgery")
          (durationStep (parseQueryDetails "46M knee surgery")
            { decision := "approved", amount := baseCoverageAmount,
              factors := [] })) :=
  c2_pipeline_no_chunks mkDocumentProcessor "46M knee surgery" "s"
    Reachable.init

/-- Claim C5 (counterexample): the claim states every component is
clamped into [0,1] before weighting, capping the relevance contribution
at 0.4; but with a single chunk of similarity 2 and three factors the
code returns clamp(0 + 0.8 + 0.3) = 1 while the claimed formula gives
0 + 0.4 + 0.3 = 0.7. -/
theorem c5_counterexample :
    calcConfidence ⟨none, none, none, none, none, none, ""⟩
      [⟨"doc.pdf", "text", 2, 0⟩] ⟨"approved", 50000, ["a", "b", "c"]⟩ = 1 ∧
    specConfidence ⟨none, none, none, none, none, none, ""⟩
      [⟨"doc.pdf", "text", 2, 0⟩] ⟨"approved", 50000, ["a", "b", "c"]⟩
      = 7 / 10 ∧
    calcConfidence ⟨none, none, none, none, none, none, ""⟩
      [⟨"doc.pdf", "text", 2, 0⟩] ⟨"approved", 50000, ["a", "b", "c"]⟩ ≠
    specConfidence ⟨none, none, none, none, none, none, ""⟩
      [⟨"doc.pdf", "text", 2, 0⟩] ⟨"approved", 50000, ["a", "b", "c"]⟩ := by
  refine ⟨?_, ?_, ?_⟩ <;>
    norm_num [calcConfidence, specConfidence, completedCount, avgSimilarity,
      List.sum_cons]

/-- Claim C5 (amended): the score is the weighted sum of completeness/3
(weight 0.3), the raw — not pre-clamped — average similarity (weight
0.4) and the clarity term, with only the final sum clamped; for
non-negative similarities the lower clamp is inert and the score lies in
[0, 1], but an average similarity above 1 contributes more than 0.4. -/
theorem c5_amended_confidence_formula (p : ParsedQuery)
    (chunks : List Chunk) (r : DecisionResult)
    (hsim : ∀ c ∈ chunks, 0 ≤ c.similarity) :
    0 ≤ calcConfidence p chunks r ∧ calcConfidence p chunks r ≤ 1 ∧
    calcConfidence p chunks r =
      min (((completedCount p : ℚ) / 3) * (3 / 10) +
        (if chunks.isEmpty then 0 else avgSimilarity chunks * (2 / 5)) +
        (if r.factors.isEmpty then 1 / 10
         else min ((r.factors.length : ℚ) / 3) 1 * (3 / 10))) 1 := by
  have havg : 0 ≤ (if chunks.isEmpty then 0
      else avgSimilarity chunks * (2 / 5)) := by
    split
    · exact le_refl 0
    · refine mul_nonneg (div_nonneg ?_ (Nat.cast_nonneg _)) (by norm_num)
      exact List.sum_nonneg fun x hx => by
        obtain ⟨c, hc, hcx⟩ := List.mem_map.mp hx
        exact hcx ▸ hsim c hc
  have hf1 : 0 ≤ ((completedCount p : ℚ) / 3) * (3 / 10) :=
    mul_nonneg (div_nonneg (Nat.cast_nonneg _) (by norm_num)) (by norm_num)
  have hf3 : 0 ≤ (if r.factors.isEmpty then (1 : ℚ) / 10
      else min ((r.factors.length : ℚ) / 3) 1 * (3 / 10)) := by
    split
    · norm_num
    · exact mul_nonneg
        (le_min (div_nonneg (Nat.cast_nonneg _) (by norm_num)) zero_le_one
          |>.trans (min_le_min (le_refl _) (le_refl _)))
        (by norm_num)
  have hsum : 0 ≤ ((completedCount p : ℚ) / 3) * (3 / 10) +
      (if chunks.isEmpty then 0 else avgSimilarity chunks * (2 / 5)) +
      (if r.factors.isEmpty then 1 / 10
       else min ((r.factors.length : ℚ) / 3) 1 * (3 / 10)) := by
    have := add_nonneg (add_nonneg hf1 havg) hf3
    exact this
  refine ⟨?_, ?_, ?_⟩
  · unfold calcConfidence
    exact le_min (le_max_right _ _) zero_le_one
  · unfold calcConfidence
    exact min_le_right _ _
  · unfold calcConfidence
    dsimp only
    rw [max_eq_left hsum]

/-- Witness for C5: the amended theorem applied at an empty chunk list. -/
theorem c5_witness :
    0 ≤ calcConfidence ⟨some 46, none, some "knee", none, none, none, "q"⟩ []
      ⟨"approved", 75000, ["f1"]⟩ ∧
    calcConfidence ⟨some 46, none, some "knee", none, none, none, "q"⟩ []
      ⟨"approved", 75000, ["f1"]⟩ ≤ 1 ∧
    calcConfidence ⟨some 46, none, some "knee", none, none, none, "q"⟩ []
      ⟨"approved", 75000, ["f1"]⟩ =
      min (((completedCount
        ⟨some 46, none, some "knee", none, none, none, "q"⟩ : ℚ) / 3) *
          (3 / 10) +
        (if ([] : List Chunk).isEmpty then 0 else avgSimilarity [] * (2 / 5)) +
        (if (DecisionResult.factors ⟨"approved", 75000, ["f1"]⟩).isEmpty
          then 1 / 10
         else min (((DecisionResult.factors
           ⟨"approved", 75000, ["f1"]⟩).length : ℚ) / 3) 1 * (3 / 10))) 1 :=
  c5_amended_confidence_formula _ [] _ (by simp)

/-- Claim C7: when none of the extraction patterns match, parsing returns
the all-absent record (it is total, so nothing is raised), and the
decision engine with no chunks approves at the base coverage amount with
no factors. -/
theorem c7_unparsed_default_approval (q : String)
    (hage : extractAge q = none) (hg : extractGender q = none)
    (hpr : extractProcedure q = none) (hloc : extractLocation q = none)
    (hdur : extractDuration q = none) :
    parseQueryDetails q = ⟨none, none, none, none, none, none, q⟩ ∧
    makeDecision (parseQueryDetails q) [] =
      { decision := "approved", amount := baseCoverageAmount,
        factors := [] } := by
  have hp : parseQueryDetails q = ⟨none, none, none, none, none, none, q⟩ := by
    unfold parseQueryDetails
    rw [hage, hg, hpr, hloc, hdur]
    rfl
  refine ⟨hp, ?_⟩
  rw [hp]
  rfl

/-- Witness for C7: a query matching no pattern. -/
theorem c7_witness :
    parseQueryDetails "hello" = ⟨none, none, none, none, none, none, "hello"⟩ ∧
    makeDecision (parseQueryDetails "hello") [] =
      { decision := "approved", amount := baseCoverageAmount,
        factors := [] } :=
  c7_unparsed_default_approval "hello" (by decide) (by decide) (by decide)
    (by decide) (by decide)

/-- Claim C8: with no procedure parsed, raising the age from 60 to 61
(all else equal) never increases the amount — the 0.8 age penalty fires
at 61 and the chunk-phase coverage overrides only take running maxima —
and any parsed age above 75 forces a rejected decision. -/
theorem c8_age_monotonicity (p : ParsedQuery) (chunks : List Chunk) :
    (p.procedure = none →
      (makeDecision { p with age := some 61 } chunks).amount ≤
        (makeDecision { p with age := some 60 } chunks).amount) ∧
    (∀ a : Nat, p.age = some a → 75 < a →
      (makeDecision p chunks).decision = "rejected") := by
  constructor
  · intro hproc
    obtain ⟨page, pgen, pproc, ploc, pdur, punit, praw⟩ := p
    have hpp : pproc = none := hproc
    subst hpp
    unfold makeDecision
    dsimp only
    rw [procedureStep_no_proc ⟨some 61, pgen, none, ploc, pdur, punit, praw⟩
        _ rfl,
      procedureStep_no_proc ⟨some 60, pgen, none, ploc, pdur, punit, praw⟩
        _ rfl]
    by_cases hfire : (pdur.getD 0 ≠ 0 ∧
        pdur.getD 0 < minPolicyDurationMonths)
    · have hd : ∀ x : Option Nat,
          durationStep ⟨x, pgen, none, ploc, pdur, punit, praw⟩
            { decision := "approved", amount := baseCoverageAmount,
              factors := [] } =
          { decision := "rejected", amount := 0
            factors := ["Policy duration (" ++ toString (pdur.getD 0) ++
              " months) is less than minimum required (" ++
              toString minPolicyDurationMonths ++ " months)"] } := by
        intro x
        unfold durationStep
        dsimp only
        rw [if_pos hfire]
        simp
      rw [hd, hd]
      have hna : DecisionResult.decision
          { decision := "rejected", amount := 0
            factors := ["Policy duration (" ++ toString (pdur.getD 0) ++
              " months) is less than minimum required (" ++
              toString minPolicyDurationMonths ++ " months)"] } ≠ "approved" :=
        fun hc => rejected_ne_approved hc
      rw [ageStep_not_approved _ _ hna, ageStep_not_approved _ _ hna]
    · have hd : ∀ x : Option Nat,
          durationStep ⟨x, pgen, none, ploc, pdur, punit, praw⟩
            { decision := "approved", amount := baseCoverageAmount,
              factors := [] } =
          { decision := "approved", amount := baseCoverageAmount,
            factors := [] } := by
        intro x
        unfold durationStep
        dsimp only
        rw [if_neg hfire]
      rw [hd, hd]
      have h61 : ageStep ⟨some 61, pgen, none, ploc, pdur, punit, praw⟩
          { decision := "approved", amount := baseCoverageAmount,
            factors := [] } =
          { decision := "approved",
            amount := baseCoverageAmount * agePenaltyFactor,
            factors := ["Age penalty applied for age " ++ toString 61] } := by
        unfold ageStep
        dsimp only
        rw [if_pos ⟨by decide, rfl⟩, if_neg (by decide), if_pos (by decide)]
        simp
      have h60 : ageStep ⟨some 60, pgen, none, ploc, pdur, punit, praw⟩
          { decision := "approved", amount := baseCoverageAmount,
            factors := [] } =
          { decision := "approved", amount := baseCoverageAmount,
            factors := [] } := by
        unfold ageStep
        dsimp only
        rw [if_pos ⟨by decide, rfl⟩, if_neg (by decide), if_neg (by decide)]
      rw [h61, h60]
      apply chunkLoop_none_mono _ _ _ rfl rfl
      rw [show agePenaltyFactor = 8 / 10 from rfl,
        show baseCoverageAmount = 50000 from rfl]
      norm_num
  · intro a ha h75a
    unfold makeDecision
    by_cases hfire : (p.policy_duration.getD 0 ≠ 0 ∧
        p.policy_duration.getD 0 < minPolicyDurationMonths)
    · have hd : durationStep p
          { decision := "approved", amount := baseCoverageAmount,
            factors := [] } =
          { decision := "rejected", amount := 0
            factors := ["Policy duration (" ++
              toString (p.policy_duration.getD 0) ++
              " months) is less than minimum required (" ++
              toString minPolicyDurationMonths ++ " months)"] } := by
        unfold durationStep
        rw [if_pos hfire]
        simp
      rw [hd]
      exact (laterSteps_keep_rejected p chunks _ rfl rfl).1
    · have hd : durationStep p
          { decision := "approved", amount := baseCoverageAmount,
            factors := [] } =
          { decision := "approved", amount := baseCoverageAmount,
            factors := [] } := by
        unfold durationStep
        rw [if_neg hfire]
      rw [hd]
      have hag : ageStep p
          { decision := "approved", amount := baseCoverageAmount,
            factors := [] } =
          { decision := "rejected", amount := 0
            factors := ["Age (" ++ toString a ++
              ") exceeds maximum coverage age (" ++ toString maxAgePremium ++
              ")"] } := by
        unfold ageStep
        rw [ha]
        dsimp only
        rw [if_pos ⟨by omega, rfl⟩,
          if_pos (by simpa [maxAgePremium] using h75a)]
        simp
      rw [hag]
      have hna : DecisionResult.decision
          { decision := "rejected", amount := 0
            factors := ["Age (" ++ toString a ++
              ") exceeds maximum coverage age (" ++ toString maxAgePremium ++
              ")"] } ≠ "approved" := fun hc => rejected_ne_approved hc
      rw [procedureStep_not_approved _ _ hna]
      exact chunkLoop_rejected _ _ _ rfl

/-- Witness for C8: both parts applied at concrete inputs. -/
theorem c8_witness :
    (makeDecision { (⟨none, none, none, none, none, none, "q"⟩ : ParsedQuery)
        with age := some 61 } []).amount ≤
      (makeDecision { (⟨none, none, none, none, none, none, "q"⟩ : ParsedQuery)
        with age := some 60 } []).amount ∧
    (makeDecision ⟨some 80, none, none, none, none, none, "q"⟩ []).decision
      = "rejected" :=
  ⟨(c8_age_monotonicity ⟨none, none, none, none, none, none, "q"⟩ []).1 rfl,
   (c8_age_monotonicity ⟨some 80, none, none, none, none, none, "q"⟩ []).2
     80 rfl (by norm_num)⟩

/-- Claim C9: the final amount of `_make_decision` is non-negative and is
zero whenever the final decision is rejected; and once a state is
rejected, each later rule (age, procedure, chunk scan) keeps it
rejected. -/
theorem c9_decision_invariants (p : ParsedQuery) (chunks : List Chunk) :
    0 ≤ (makeDecision p chunks).amount ∧
    ((makeDecision p chunks).decision = "rejected" →
      (makeDecision p chunks).amount = 0) ∧
    (∀ (st : DecisionResult) (cs : List Chunk), st.decision = "rejected" →
      (ageStep p st).decision = "rejected" ∧
      (procedureStep p st).decision = "rejected" ∧
      (chunkLoop p.procedure st cs).decision = "rejected") := by
  have hinv : DInv (makeDecision p chunks) := by
    unfold makeDecision
    refine chunkLoop_inv _ _ _ (procedureStep_inv _ _ (ageStep_inv _ _
      (durationStep_inv _ _ ⟨?_, fun hr => absurd hr (by decide)⟩)))
    norm_num [baseCoverageAmount]
  refine ⟨hinv.1, hinv.2, fun st cs hst => ?_⟩
  have hna : st.decision ≠ "approved" := by
    rw [hst]
    decide
  exact ⟨by rw [ageStep_not_approved _ _ hna]; exact hst,
    by rw [procedureStep_not_approved _ _ hna]; exact hst,
    chunkLoop_rejected _ _ _ hst⟩

/-- Witness for C9: the invariants and the rejection stability applied at
concrete inputs. -/
theorem c9_witness :
    0 ≤ (makeDecision ⟨some 46, none, some "knee", none, some 12, some
      "months", "q"⟩ []).amount ∧
    (chunkLoop (some "knee") ⟨"rejected", 0, []⟩
      [⟨"d.pdf", "coverage: rs 99,000", 1, 0⟩]).decision = "rejected" :=
  ⟨(c9_decision_invariants
      ⟨some 46, none, some "knee", none, some 12, some "months", "q"⟩ []).1,
   ((c9_decision_invariants
      ⟨some 46, none, some "knee", none, some 12, some "months", "q"⟩
      []).2.2 ⟨"rejected", 0, []⟩ [⟨"d.pdf", "coverage: rs 99,000", 1, 0⟩]
      rfl).2.2⟩

/-- Claim C10: the `except` branch of `process_query` converts any raised
pipeline exception into a response whose decision is in
{error, requires_review} (namely "error"), with amount 0, confidence 0,
and the exception message embedded in the justification; the embedding's
pipeline body itself is total, so nothing ever propagates. -/
theorem c10_error_handling (msg : String) :
    ((processQueryTry (Except.error msg)).decision = "error" ∨
      (processQueryTry (Except.error msg)).decision = "requires_review") ∧
    (processQueryTry (Except.error msg)).amount = 0 ∧
    (processQueryTry (Except.error msg)).confidence_score = 0 ∧
    occursIn msg.data (processQueryTry (Except.error msg)).justification.data
      = true := by
  refine ⟨Or.inl rfl, rfl, rfl, ?_⟩
  show occursIn msg.data ("Error processing query: " ++ msg).data = true
  have hdata : ("Error processing query: " ++ msg).data =
      "Error processing query: ".data ++ msg.data := rfl
  rw [hdata]
  exact occursIn_append_right _ _

end BajajFinserv
